import Mathlib

set_option maxRecDepth 8192

/-!
Verification of the FYP-portal user/supervisor data model
(`fyp_portal/users/models.py` and `fyp_portal/users/admin.py`).

The source declares two persisted entities — `User` (extending Django's
`AbstractUser` with a `role` choice field and a `created_at` timestamp) and
`Supervisor` (name, unique email, department) — plus admin configuration
(display / filter / readonly column lists).  The create/update/delete
operations themselves are supplied by the framework's ORM; here they are
modelled explicitly as pure functions over a `Store`, following the field
declarations in `models.py` and, where the framework supplies behaviour not
present in the repository, the specification's description of that behaviour.
-/

namespace FypPortal

/-- `User.ROLE_CHOICES` from `models.py`: the four (value, label) pairs. -/
def ROLE_CHOICES : List (String × String) :=
  [("student", "Student"), ("supervisor", "Supervisor"),
   ("admin", "Admin"), ("public", "Public")]

/-- `User.role = models.CharField(max_length=20, choices=ROLE_CHOICES)`. -/
def role_max_length : Nat := 20

/-- Django `CharField` default: `blank=False`; `models.py` does not override it
for `role`. -/
def role_blank : Bool := false

/-- `models.py` declares no `default=` for `User.role`. -/
def role_has_default : Bool := false

/-- `User.created_at = models.DateTimeField(auto_now_add=True)`. -/
def created_at_auto_now_add : Bool := true

/-- `username` is inherited from Django's `AbstractUser`, which declares
`username = models.CharField(max_length=150, unique=True, ...)`. -/
def username_max_length : Nat := 150

/-- `Supervisor.name = models.CharField(max_length=255)`. -/
def supervisor_name_max_length : Nat := 255

/-- `Supervisor.email = models.EmailField(unique=True)`; Django's
`EmailField` defaults to `max_length=254`. -/
def supervisor_email_max_length : Nat := 254

/-- `Supervisor.email` is declared with `unique=True`. -/
def supervisor_email_unique : Bool := true

/-- `Supervisor.department = models.CharField(max_length=255)`. -/
def supervisor_department_max_length : Nat := 255

/-- A persisted `Supervisor` row: auto primary key plus the three declared
columns of `models.py`. -/
structure SupervisorRec where
  id : Nat
  name : String
  email : String
  department : String
deriving DecidableEq

/-- A persisted `User` row: auto primary key, the `AbstractUser` columns used
by this fragment (`username`, `email`, `is_staff`, `is_active`), the declared
`role`, and `created_at` (a timestamp, modelled as `Nat`). -/
structure UserRec where
  id : Nat
  username : String
  email : String
  role : String
  is_staff : Bool
  is_active : Bool
  created_at : Nat
deriving DecidableEq

/-- The two error kinds of the spec's error taxonomy (§7): field-validation
failure, and violation of a declared uniqueness constraint. -/
inductive DBError where
  | ValidationError : DBError
  | UniqueConstraintViolation : DBError
deriving DecidableEq

/-- The persisted store: one logical table per entity. -/
structure Store where
  users : List UserRec
  supervisors : List SupervisorRec
deriving DecidableEq

/-- The empty store. -/
def emptyStore : Store := ⟨[], []⟩

deriving instance DecidableEq for Except

/-- `validRole r` iff `r` is one of the four declared choice values:
Django validates a `choices` field against the declared value list. -/
def validRole (r : String) : Bool := ROLE_CHOICES.any (fun c => c.1 == r)

/-- Modelled from the spec: the syntactic email validity check performed by
Django's `EmailField` validator is framework code not present in the
repository; the spec (§3) only requires that `email` "must be a syntactically
valid email address".  We model it as: exactly one `@`, a nonempty local
part, and a nonempty domain containing a dot that is neither its first nor
its last character, with no whitespace anywhere. -/
def isValidEmail (s : String) : Bool :=
  let cs := s.toList
  (cs.countP (fun ch => ch == '@') == 1) &&
  (let locPart := cs.takeWhile (fun ch => ch != '@')
   let domPart := (cs.dropWhile (fun ch => ch != '@')).drop 1
   !locPart.isEmpty && !domPart.isEmpty &&
   domPart.contains '.' &&
   domPart.head? != some '.' && domPart.getLast? != some '.' &&
   cs.all (fun ch => !ch.isWhitespace))

/-- Largest value of `f` over a list (0 when empty); used for autoincrement
primary keys. -/
def maxNat {α : Type} (f : α → Nat) (l : List α) : Nat :=
  l.foldr (fun r m => max (f r) m) 0

/-- Next autoincrement primary key for the supervisor table. -/
def nextSupervisorId (s : Store) : Nat := maxNat SupervisorRec.id s.supervisors + 1

/-- Next autoincrement primary key for the user table. -/
def nextUserId (s : Store) : Nat := maxNat UserRec.id s.users + 1

/-- Modelled from the spec: field validation for a Supervisor write
(framework behaviour; the repository only declares the fields).  Checks the
declared constraints of `models.py`: email syntax and the three maximum
lengths. -/
def supervisorValidate (name email department : String) : Option DBError :=
  if !isValidEmail email then some .ValidationError
  else if supervisor_name_max_length < name.length then some .ValidationError
  else if supervisor_email_max_length < email.length then some .ValidationError
  else if supervisor_department_max_length < department.length then some .ValidationError
  else none

/-- Modelled from the spec: Supervisor Create (§4.2).  Validation runs before
any write; then the store enforces `email` uniqueness atomically, rejecting
the insert with `UniqueConstraintViolation` and leaving the store unchanged
(the operation is pure: an `.error` result produces no new store). -/
def supervisorCreate (s : Store) (name email department : String) :
    Except DBError Store :=
  match supervisorValidate name email department with
  | some e => .error e
  | none =>
    if s.supervisors.any (fun r => r.email == email) then
      .error .UniqueConstraintViolation
    else
      .ok { s with supervisors :=
              s.supervisors ++ [⟨nextSupervisorId s, name, email, department⟩] }

/-- The row transformation applied by a Supervisor update: the row with the
given primary key receives the new field values; all other rows are kept. -/
def supervisorApplyUpdate (i : Nat) (name email department : String)
    (r : SupervisorRec) : SupervisorRec :=
  if r.id == i then { r with name := name, email := email, department := department }
  else r

/-- Modelled from the spec: Supervisor Update (§4.2).  Validation runs before
any write; the uniqueness check for `email` excludes the row being updated
and is enforced atomically by the store. -/
def supervisorUpdate (s : Store) (i : Nat) (name email department : String) :
    Except DBError Store :=
  match supervisorValidate name email department with
  | some e => .error e
  | none =>
    if s.supervisors.any (fun r => r.id != i && r.email == email) then
      .error .UniqueConstraintViolation
    else
      .ok { s with supervisors :=
              s.supervisors.map (supervisorApplyUpdate i name email department) }

/-- Modelled from the spec: Supervisor Delete — explicit administrative
deletion of the row with the given primary key. -/
def supervisorDelete (s : Store) (i : Nat) : Store :=
  { s with supervisors := s.supervisors.filter (fun r => r.id != i) }

/-- Modelled from the spec: field validation for a User write (framework
behaviour).  Checks the inherited `username` maximum length and that `role`
is one of the declared choices (per §4.1, any other role value fails with
`ValidationError`; `blank=False` means the empty string is rejected too,
and indeed `""` is not among the choices). -/
def userValidate (username role : String) : Option DBError :=
  if username_max_length < username.length then some .ValidationError
  else if !validRole role then some .ValidationError
  else none

/-- Modelled from the spec: Account Directory Create (§4.1).  Produces a new
record with `created_at` stamped at the current time `now`
(`auto_now_add=True`); fails with `ValidationError` if `username` is not
unique or `role` is not one of the four allowed values. -/
def userCreate (s : Store) (now : Nat) (username email role : String)
    (is_staff is_active : Bool) : Except DBError Store :=
  match userValidate username role with
  | some e => .error e
  | none =>
    if s.users.any (fun u => u.username == username) then .error .ValidationError
    else
      .ok { s with users :=
              s.users ++ [⟨nextUserId s, username, email, role, is_staff, is_active, now⟩] }

/-- The row transformation applied by a User update: every field of the row
with the given primary key may change except `created_at`
(`auto_now_add=True` fields are written only at insert) and the primary key. -/
def userApplyUpdate (i : Nat) (username email role : String)
    (is_staff is_active : Bool) (u : UserRec) : UserRec :=
  if u.id == i then
    { u with username := username, email := email, role := role,
             is_staff := is_staff, is_active := is_active }
  else u

/-- Modelled from the spec: Account Directory Update (§4.1).  May change any
field except `created_at`; fails with `ValidationError` on invalid role
values or a duplicated `username`. -/
def userUpdate (s : Store) (i : Nat) (username email role : String)
    (is_staff is_active : Bool) : Except DBError Store :=
  match userValidate username role with
  | some e => .error e
  | none =>
    if s.users.any (fun u => u.id != i && u.username == username) then
      .error .ValidationError
    else
      .ok { s with users :=
              s.users.map (userApplyUpdate i username email role is_staff is_active) }

/-- No two distinct supervisor rows share a primary key. -/
def supIdsUnique (s : Store) : Prop :=
  s.supervisors.Pairwise (fun a b => a.id ≠ b.id)

/-- No two distinct supervisor rows share an `email` value — the uniqueness
invariant declared by `unique=True` on `Supervisor.email`. -/
def supEmailsUnique (s : Store) : Prop :=
  s.supervisors.Pairwise (fun a b => a.email ≠ b.email)

namespace CustomUserAdmin

/-- `CustomUserAdmin.list_display` from `admin.py`. -/
def list_display : List String := ["username", "email", "role", "is_staff", "created_at"]

/-- `CustomUserAdmin.list_filter` from `admin.py`. -/
def list_filter : List String := ["role", "is_staff", "is_active"]

/-- `CustomUserAdmin.readonly_fields` from `admin.py`. -/
def readonly_fields : List String := ["created_at"]

end CustomUserAdmin

namespace SupervisorAdmin

/-- `SupervisorAdmin.list_display` from `admin.py`. -/
def list_display : List String := ["name", "email", "department"]

/-- `SupervisorAdmin.search_fields` from `admin.py`. -/
def search_fields : List String := ["name", "email", "department"]

end SupervisorAdmin

/-! ## Helper lemmas shared by several claims -/

/-- `userValidate` only ever reports a `ValidationError`. -/
lemma userValidate_eq_some {un r : String} {e : DBError}
    (h : userValidate un r = some e) : e = .ValidationError := by
  unfold userValidate at h
  split_ifs at h <;> simp_all

/-- If the role is not among the declared choices, user field validation
fails with `ValidationError` (regardless of the username). -/
lemma userValidate_of_invalidRole {r : String} (un : String)
    (h : validRole r = false) : userValidate un r = some .ValidationError := by
  unfold userValidate
  split_ifs with h1 h2
  · rfl
  · rfl
  · simp [h] at h2

/-- A user create surfaces any field-validation failure unchanged. -/
lemma userCreate_error_of_validate {un r : String} {e : DBError}
    (s : Store) (now : Nat) (em : String) (st ac : Bool)
    (h : userValidate un r = some e) :
    userCreate s now un em r st ac = .error e := by
  unfold userCreate
  rw [h]

/-- A user update surfaces any field-validation failure unchanged. -/
lemma userUpdate_error_of_validate {un r : String} {e : DBError}
    (s : Store) (i : Nat) (em : String) (st ac : Bool)
    (h : userValidate un r = some e) :
    userUpdate s i un em r st ac = .error e := by
  unfold userUpdate
  rw [h]

/-- Characterisation of a successful user create: validation passed, the
username was fresh, and the new row is appended with `created_at = now`. -/
lemma userCreate_ok {s s' : Store} {now : Nat} {un em r : String} {st ac : Bool}
    (h : userCreate s now un em r st ac = .ok s') :
    userValidate un r = none ∧
    s.users.any (fun u => u.username == un) = false ∧
    s' = { s with users := s.users ++ [⟨nextUserId s, un, em, r, st, ac, now⟩] } := by
  unfold userCreate at h
  cases hv : userValidate un r with
  | some e => rw [hv] at h; exact absurd h (by simp)
  | none =>
    rw [hv] at h
    simp only at h
    by_cases hdup : s.users.any (fun u => u.username == un)
    · rw [if_pos hdup] at h
      exact absurd h (by simp)
    · rw [if_neg hdup] at h
      refine ⟨rfl, by simpa using hdup, ?_⟩
      exact (Except.ok.inj h).symm

/-- Characterisation of a successful user update: validation passed, no
other row held the username, and the update map was applied. -/
lemma userUpdate_ok {s s' : Store} {i : Nat} {un em r : String} {st ac : Bool}
    (h : userUpdate s i un em r st ac = .ok s') :
    userValidate un r = none ∧
    s' = { s with users := s.users.map (userApplyUpdate i un em r st ac) } := by
  unfold userUpdate at h
  cases hv : userValidate un r with
  | some e => rw [hv] at h; exact absurd h (by simp)
  | none =>
    rw [hv] at h
    simp only at h
    by_cases hdup : s.users.any (fun u => u.id != i && u.username == un)
    · rw [if_pos hdup] at h
      exact absurd h (by simp)
    · rw [if_neg hdup] at h
      refine ⟨rfl, ?_⟩
      exact (Except.ok.inj h).symm

/-- `supervisorValidate` only ever reports a `ValidationError`. -/
lemma supervisorValidate_eq_some {n e d : String} {err : DBError}
    (h : supervisorValidate n e d = some err) : err = .ValidationError := by
  unfold supervisorValidate at h
  split_ifs at h <;> simp_all

/-- A supervisor create surfaces any field-validation failure unchanged. -/
lemma supervisorCreate_error_of_validate {n e d : String} {err : DBError}
    (s : Store) (h : supervisorValidate n e d = some err) :
    supervisorCreate s n e d = .error err := by
  unfold supervisorCreate
  rw [h]

/-- Characterisation of a successful supervisor create: validation passed,
the email was fresh, and the new row is appended. -/
lemma supervisorCreate_ok {s s' : Store} {n e d : String}
    (h : supervisorCreate s n e d = .ok s') :
    supervisorValidate n e d = none ∧
    s.supervisors.any (fun r => r.email == e) = false ∧
    s' = { s with supervisors := s.supervisors ++ [⟨nextSupervisorId s, n, e, d⟩] } := by
  unfold supervisorCreate at h
  cases hv : supervisorValidate n e d with
  | some err => rw [hv] at h; exact absurd h (by simp)
  | none =>
    rw [hv] at h
    simp only at h
    by_cases hdup : s.supervisors.any (fun r => r.email == e)
    · rw [if_pos hdup] at h
      exact absurd h (by simp)
    · rw [if_neg hdup] at h
      exact ⟨rfl, by simpa using hdup, (Except.ok.inj h).symm⟩

/-- Characterisation of a successful supervisor update: validation passed,
no other row held the email, and the update map was applied. -/
lemma supervisorUpdate_ok {s s' : Store} {i : Nat} {n e d : String}
    (h : supervisorUpdate s i n e d = .ok s') :
    supervisorValidate n e d = none ∧
    s.supervisors.any (fun r => r.id != i && r.email == e) = false ∧
    s' = { s with supervisors := s.supervisors.map (supervisorApplyUpdate i n e d) } := by
  unfold supervisorUpdate at h
  cases hv : supervisorValidate n e d with
  | some err => rw [hv] at h; exact absurd h (by simp)
  | none =>
    rw [hv] at h
    simp only at h
    by_cases hdup : s.supervisors.any (fun r => r.id != i && r.email == e)
    · rw [if_pos hdup] at h
      exact absurd h (by simp)
    · rw [if_neg hdup] at h
      exact ⟨rfl, by simpa using hdup, (Except.ok.inj h).symm⟩

/-- When user field validation passes, the role was a declared choice. -/
lemma validRole_of_validate_none {un r : String}
    (h : userValidate un r = none) : validRole r = true := by
  unfold userValidate at h
  split_ifs at h with h1 h2
  simpa using h2

/-- A sample user row used for concrete instantiations. -/
def demoUser : UserRec := ⟨1, "alice", "alice@univ.edu", "student", false, true, 5⟩

/-- A store holding just `demoUser`. -/
def demoUserStore : Store := ⟨[demoUser], []⟩

/-- A sample supervisor row used for concrete instantiations. -/
def demoSupervisor : SupervisorRec := ⟨1, "Dr. Lee", "lee@univ.edu", "CS"⟩

/-- A store holding just `demoSupervisor`. -/
def demoSupervisorStore : Store := ⟨[], [demoSupervisor]⟩

/-! ## Claims -/

/-- Claim C8: the Account Directory's management configuration registers
exactly `role`, `is_staff`, `is_active` as its filterable columns, exactly
`username`, `email`, `role`, `is_staff`, `created_at` as its display
columns, and marks `created_at` as read-only. -/
theorem C8_admin_configuration :
    CustomUserAdmin.list_filter = ["role", "is_staff", "is_active"] ∧
    CustomUserAdmin.list_display = ["username", "email", "role", "is_staff", "created_at"] ∧
    CustomUserAdmin.readonly_fields = ["created_at"] :=
  ⟨rfl, rfl, rfl⟩

/-- Claim C9: `role` has no declared default and does not allow blank
values, the empty string is not among the four enumerated choices, and
creating a User without supplying a role value (Django's unset `CharField`
value is `""`) fails validation — no fallback role is ever stored. -/
theorem C9_role_no_default :
    role_has_default = false ∧ role_blank = false ∧ validRole "" = false ∧
    ∀ (s : Store) (now : Nat) (un em : String) (st ac : Bool),
      userCreate s now un em "" st ac = .error .ValidationError := by
  refine ⟨rfl, rfl, by decide, ?_⟩
  intro s now un em st ac
  exact userCreate_error_of_validate s now em st ac
    (userValidate_of_invalidRole un (by decide))

/-- Claim C10: Supervisor email uniqueness is exact-string and
case-sensitive: no normalisation is applied before the uniqueness
comparison, so `"Lee@univ.edu"` and `"lee@univ.edu"` can both be stored
simultaneously. -/
theorem C10_email_uniqueness_case_sensitive :
    supervisorCreate emptyStore "Dr. Lee" "Lee@univ.edu" "CS"
      = .ok ⟨[], [⟨1, "Dr. Lee", "Lee@univ.edu", "CS"⟩]⟩ ∧
    supervisorCreate ⟨[], [⟨1, "Dr. Lee", "Lee@univ.edu", "CS"⟩]⟩
        "Dr. Lee" "lee@univ.edu" "CS"
      = .ok ⟨[], [⟨1, "Dr. Lee", "Lee@univ.edu", "CS"⟩,
                  ⟨2, "Dr. Lee", "lee@univ.edu", "CS"⟩]⟩ := by
  constructor <;> decide

/-- Claim C5: inserting a Supervisor whose email string is not syntactically
valid is rejected with `ValidationError` before any write is attempted (an
`.error` result of the pure operation produces no new store, so the store is
unchanged). -/
theorem C5_invalid_email_rejected (s : Store) (n e d : String)
    (h : isValidEmail e = false) :
    supervisorCreate s n e d = .error .ValidationError := by
  apply supervisorCreate_error_of_validate
  unfold supervisorValidate
  rw [if_pos (by simp [h])]

/-- Witness for C5 at the spec's concrete input `"not-an-email"`. -/
theorem C5_invalid_email_rejected_witness :
    isValidEmail "not-an-email" = false ∧
    supervisorCreate emptyStore "Dr. X" "not-an-email" "CS"
      = .error .ValidationError :=
  ⟨by decide, C5_invalid_email_rejected emptyStore "Dr. X" "not-an-email" "CS" (by decide)⟩

/-- Claim C6: Account Directory Create fails with `ValidationError` whenever
the supplied username equals the username of an existing User record. -/
theorem C6_username_unique (s : Store) (now : Nat) (un em r : String)
    (st ac : Bool) (h : ∃ u ∈ s.users, u.username = un) :
    userCreate s now un em r st ac = .error .ValidationError := by
  cases hv : userValidate un r with
  | some e =>
    have he : e = .ValidationError := userValidate_eq_some hv
    subst he
    exact userCreate_error_of_validate s now em st ac hv
  | none =>
    have hdup : s.users.any (fun u => u.username == un) = true := by
      rcases h with ⟨u, hu, he⟩
      rw [List.any_eq_true]
      exact ⟨u, hu, by simp [he]⟩
    unfold userCreate
    rw [hv]
    simp [hdup]

/-- Witness for C6: creating a second `"alice"` fails. -/
theorem C6_username_unique_witness :
    (∃ u ∈ demoUserStore.users, u.username = "alice") ∧
    userCreate demoUserStore 9 "alice" "alice2@univ.edu" "student" false true
      = .error .ValidationError :=
  ⟨⟨demoUser, by decide, rfl⟩,
   C6_username_unique demoUserStore 9 "alice" "alice2@univ.edu" "student" false true
     ⟨demoUser, by decide, rfl⟩⟩

/-- Claim C2: the stored `role` of every User record is one of exactly
{student, supervisor, admin, public}; a create or update supplying any other
role value is rejected with `ValidationError`, so no open-ended string is
ever stored as a role. -/
theorem C2_role_enumerated (s : Store)
    (hs : ∀ u ∈ s.users, validRole u.role = true) :
    (∀ r, validRole r = true ↔
        (r = "student" ∨ r = "supervisor" ∨ r = "admin" ∨ r = "public")) ∧
    (∀ (now : Nat) (un em r : String) (st ac : Bool) (s' : Store),
        userCreate s now un em r st ac = .ok s' →
        ∀ u ∈ s'.users, validRole u.role = true) ∧
    (∀ (i : Nat) (un em r : String) (st ac : Bool) (s' : Store),
        userUpdate s i un em r st ac = .ok s' →
        ∀ u ∈ s'.users, validRole u.role = true) ∧
    (∀ (now : Nat) (un em r : String) (st ac : Bool), validRole r = false →
        userCreate s now un em r st ac = .error .ValidationError) ∧
    (∀ (i : Nat) (un em r : String) (st ac : Bool), validRole r = false →
        userUpdate s i un em r st ac = .error .ValidationError) := by
  refine ⟨?_, ?_, ?_, ?_, ?_⟩
  · intro r
    constructor
    · intro h
      simp only [validRole, ROLE_CHOICES, List.any_cons, List.any_nil,
        Bool.or_eq_true, beq_iff_eq] at h
      tauto
    · intro h
      rcases h with h | h | h | h <;> subst h <;> decide
  · intro now un em r st ac s' h u hu
    obtain ⟨hval, -, hs'⟩ := userCreate_ok h
    subst hs'
    simp only [List.mem_append, List.mem_singleton] at hu
    rcases hu with hu | hu
    · exact hs u hu
    · subst hu
      exact validRole_of_validate_none hval
  · intro i un em r st ac s' h u hu
    obtain ⟨hval, hs'⟩ := userUpdate_ok h
    subst hs'
    simp only [List.mem_map] at hu
    rcases hu with ⟨x, hx, hfx⟩
    subst hfx
    unfold userApplyUpdate
    split
    · exact validRole_of_validate_none hval
    · exact hs x hx
  · intro now un em r st ac h
    exact userCreate_error_of_validate s now em st ac
      (userValidate_of_invalidRole un h)
  · intro i un em r st ac h
    exact userUpdate_error_of_validate s i em st ac
      (userValidate_of_invalidRole un h)

/-- Witness for C2: `"teacher"` is rejected on the empty store. -/
theorem C2_role_enumerated_witness :
    validRole "teacher" = false ∧
    userCreate emptyStore 0 "bob" "bob@univ.edu" "teacher" false true
      = .error .ValidationError :=
  ⟨by decide,
   (C2_role_enumerated emptyStore (by intro u hu; cases hu)).2.2.2.1
     0 "bob" "bob@univ.edu" "teacher" false true (by decide)⟩

/-- Claim C3: `created_at` is stamped exactly once at record creation
(`auto_now_add`), and every update leaves the `(id, created_at)` column of
the user table unchanged whatever fields the update modifies. -/
theorem C3_created_at_immutable (s : Store) :
    (∀ (now : Nat) (un em r : String) (st ac : Bool) (s' : Store),
        userCreate s now un em r st ac = .ok s' →
        s'.users.map (fun u => (u.id, u.created_at))
          = s.users.map (fun u => (u.id, u.created_at)) ++ [(nextUserId s, now)]) ∧
    (∀ (i : Nat) (un em r : String) (st ac : Bool) (s' : Store),
        userUpdate s i un em r st ac = .ok s' →
        s'.users.map (fun u => (u.id, u.created_at))
          = s.users.map (fun u => (u.id, u.created_at))) := by
  constructor
  · intro now un em r st ac s' h
    obtain ⟨-, -, hs'⟩ := userCreate_ok h
    subst hs'
    simp
  · intro i un em r st ac s' h
    obtain ⟨-, hs'⟩ := userUpdate_ok h
    subst hs'
    simp only [List.map_map]
    apply List.map_congr_left
    intro u hu
    simp only [Function.comp_apply]
    unfold userApplyUpdate
    split <;> rfl

/-- `demoUserStore` after an administrator changes alice's role. -/
def demoUserStoreAfter : Store :=
  ⟨[⟨1, "alice", "alice@univ.edu", "supervisor", false, true, 5⟩], []⟩

/-- Witness for C3: a role change on `demoUserStore` keeps `created_at`. -/
theorem C3_created_at_immutable_witness :
    demoUserStoreAfter.users.map (fun u => (u.id, u.created_at))
      = demoUserStore.users.map (fun u => (u.id, u.created_at)) :=
  (C3_created_at_immutable demoUserStore).2
    1 "alice" "alice@univ.edu" "supervisor" false true
    demoUserStoreAfter (by decide)

/-- Every list element's key is bounded by `maxNat`. -/
lemma mem_le_maxNat {α : Type} (f : α → Nat) (l : List α) (r : α) (hr : r ∈ l) :
    f r ≤ maxNat f l := by
  induction l with
  | nil => cases hr
  | cons a t ih =>
    have hfold : maxNat f (a :: t) = max (f a) (maxNat f t) := rfl
    rw [List.mem_cons] at hr
    rw [hfold]
    rcases hr with h | h
    · subst h
      exact Nat.le_max_left _ _
    · exact Nat.le_trans (ih h) (Nat.le_max_right _ _)

/-- A supervisor update never changes a row's primary key. -/
lemma supervisorApplyUpdate_id (i : Nat) (n e d : String) (r : SupervisorRec) :
    (supervisorApplyUpdate i n e d r).id = r.id := by
  unfold supervisorApplyUpdate
  split <;> rfl

/-- Applying a supervisor update whose new email collides with no *other*
row keeps the emails pairwise distinct. -/
lemma pairwise_email_update (i : Nat) (n e d : String) (l : List SupervisorRec)
    (hid : l.Pairwise (fun a b => a.id ≠ b.id))
    (hem : l.Pairwise (fun a b => a.email ≠ b.email))
    (hfresh : ∀ r ∈ l, r.id ≠ i → r.email ≠ e) :
    (l.map (supervisorApplyUpdate i n e d)).Pairwise
      (fun a b => a.email ≠ b.email) := by
  induction l with
  | nil => exact List.Pairwise.nil
  | cons a t ih =>
    rw [List.pairwise_cons] at hid hem
    rw [List.map_cons, List.pairwise_cons]
    constructor
    · intro b hb
      rw [List.mem_map] at hb
      rcases hb with ⟨x, hx, hbx⟩
      subst hbx
      by_cases ha : a.id = i
      · have hfa : (supervisorApplyUpdate i n e d a).email = e := by
          unfold supervisorApplyUpdate
          rw [if_pos (by simp [ha])]
        have hxid : x.id ≠ i := fun hxi => (hid.1 x hx) (ha.trans hxi.symm)
        have hfx : supervisorApplyUpdate i n e d x = x := by
          unfold supervisorApplyUpdate
          rw [if_neg (by simp [hxid])]
        rw [hfa, hfx]
        exact fun hc => (hfresh x (List.mem_cons_of_mem a hx) hxid) hc.symm
      · have hfa : supervisorApplyUpdate i n e d a = a := by
          unfold supervisorApplyUpdate
          rw [if_neg (by simp [ha])]
        rw [hfa]
        by_cases hx2 : x.id = i
        · have hfx : (supervisorApplyUpdate i n e d x).email = e := by
            unfold supervisorApplyUpdate
            rw [if_pos (by simp [hx2])]
          rw [hfx]
          exact hfresh a (List.mem_cons_self a t) ha
        · have hfx : supervisorApplyUpdate i n e d x = x := by
            unfold supervisorApplyUpdate
            rw [if_neg (by simp [hx2])]
          rw [hfx]
          exact hem.1 x hx
    · exact ih hid.2 hem.2 (fun r hr => hfresh r (List.mem_cons_of_mem a hr))

/-- Claim C1: for every reachable store state (one satisfying the primary-key
and email uniqueness invariants), the `Supervisor.email` uniqueness invariant
still holds after every create, update, and delete on the Supervisor
Directory (and the primary-key invariant is preserved as well). -/
theorem C1_email_uniqueness (s : Store)
    (hid : supIdsUnique s) (hem : supEmailsUnique s) :
    (∀ (n e d : String) (s' : Store), supervisorCreate s n e d = .ok s' →
        supIdsUnique s' ∧ supEmailsUnique s') ∧
    (∀ (i : Nat) (n e d : String) (s' : Store), supervisorUpdate s i n e d = .ok s' →
        supIdsUnique s' ∧ supEmailsUnique s') ∧
    (∀ i : Nat, supIdsUnique (supervisorDelete s i) ∧
        supEmailsUnique (supervisorDelete s i)) := by
  unfold supIdsUnique at hid
  unfold supEmailsUnique at hem
  unfold supIdsUnique supEmailsUnique
  refine ⟨?_, ?_, ?_⟩
  · intro n e d s' h
    obtain ⟨-, hdupF, hs'⟩ := supervisorCreate_ok h
    subst hs'
    have hfreshE : ∀ a ∈ s.supervisors, a.email ≠ e := by
      intro a ha heq
      have : s.supervisors.any (fun r => r.email == e) = true :=
        List.any_eq_true.mpr ⟨a, ha, by simp [heq]⟩
      rw [hdupF] at this
      exact Bool.false_ne_true this
    constructor
    · rw [List.pairwise_append]
      refine ⟨hid, List.pairwise_singleton _ _, ?_⟩
      intro a ha b hb
      rw [List.mem_singleton] at hb
      subst hb
      have hle : a.id ≤ maxNat SupervisorRec.id s.supervisors :=
        mem_le_maxNat SupervisorRec.id s.supervisors a ha
      have hnew : (⟨nextSupervisorId s, n, e, d⟩ : SupervisorRec).id
          = maxNat SupervisorRec.id s.supervisors + 1 := rfl
      rw [hnew]
      omega
    · rw [List.pairwise_append]
      refine ⟨hem, List.pairwise_singleton _ _, ?_⟩
      intro a ha b hb
      rw [List.mem_singleton] at hb
      subst hb
      exact hfreshE a ha
  · intro i n e d s' h
    obtain ⟨-, hdupF, hs'⟩ := supervisorUpdate_ok h
    subst hs'
    have hfresh : ∀ r ∈ s.supervisors, r.id ≠ i → r.email ≠ e := by
      intro r hr hne heq
      have : s.supervisors.any (fun r => r.id != i && r.email == e) = true :=
        List.any_eq_true.mpr ⟨r, hr, by simp [hne, heq]⟩
      rw [hdupF] at this
      exact Bool.false_ne_true this
    constructor
    · refine List.pairwise_map.mpr (hid.imp ?_)
      intro a b hab
      rw [supervisorApplyUpdate_id, supervisorApplyUpdate_id]
      exact hab
    · exact pairwise_email_update i n e d s.supervisors hid hem hfresh
  · intro i
    exact ⟨hid.filter _, hem.filter _⟩

/-- `demoSupervisorStore` after inserting a second, fresh supervisor. -/
def demoSupervisorStore2 : Store :=
  ⟨[], [demoSupervisor, ⟨2, "Dr. X", "x@univ.edu", "Math"⟩]⟩

/-- Witness for C1: the invariants hold after a concrete insert. -/
theorem C1_email_uniqueness_witness :
    supIdsUnique demoSupervisorStore2 ∧ supEmailsUnique demoSupervisorStore2 :=
  (C1_email_uniqueness demoSupervisorStore
      (by simp [supIdsUnique, demoSupervisorStore])
      (by simp [supEmailsUnique, demoSupervisorStore])).1
    "Dr. X" "x@univ.edu" "Math" demoSupervisorStore2 (by decide)

/-- Claim C4: inserting or updating a Supervisor record whose email equals
the email of an existing distinct record fails with
`UniqueConstraintViolation`; the operation is pure, so an `.error` result
rejects the write atomically and leaves the store — including the
pre-existing record — unchanged. -/
theorem C4_duplicate_email_rejected (s : Store) (n e d : String)
    (hv : supervisorValidate n e d = none)
    (hdup : ∃ r ∈ s.supervisors, r.email = e) :
    supervisorCreate s n e d = .error .UniqueConstraintViolation ∧
    ∀ i : Nat, (∃ r ∈ s.supervisors, r.id ≠ i ∧ r.email = e) →
      supervisorUpdate s i n e d = .error .UniqueConstraintViolation := by
  constructor
  · have hany : s.supervisors.any (fun r => r.email == e) = true := by
      rcases hdup with ⟨r, hr, he⟩
      exact List.any_eq_true.mpr ⟨r, hr, by simp [he]⟩
    unfold supervisorCreate
    rw [hv]
    simp [hany]
  · intro i hdup2
    have hany : s.supervisors.any (fun r => r.id != i && r.email == e) = true := by
      rcases hdup2 with ⟨r, hr, hne, he⟩
      exact List.any_eq_true.mpr ⟨r, hr, by simp [hne, he]⟩
    unfold supervisorUpdate
    rw [hv]
    simp [hany]

/-- Witness for C4: the spec's scenario — a second `"lee@univ.edu"` is
rejected as a duplicate, by insert and by update of a different row. -/
theorem C4_duplicate_email_rejected_witness :
    supervisorCreate demoSupervisorStore "Dr. Lee II" "lee@univ.edu" "CS"
      = .error .UniqueConstraintViolation ∧
    supervisorUpdate demoSupervisorStore 2 "Dr. Lee II" "lee@univ.edu" "CS"
      = .error .UniqueConstraintViolation :=
  ⟨(C4_duplicate_email_rejected demoSupervisorStore "Dr. Lee II" "lee@univ.edu" "CS"
      (by decide) ⟨demoSupervisor, by decide, rfl⟩).1,
   (C4_duplicate_email_rejected demoSupervisorStore "Dr. Lee II" "lee@univ.edu" "CS"
      (by decide) ⟨demoSupervisor, by decide, rfl⟩).2
     2 ⟨demoSupervisor, by decide, by decide, rfl⟩⟩

/-- A department value longer than 255 characters fails field validation. -/
lemma supervisorValidate_some_of_long_department {d : String} (n e : String)
    (h : supervisor_department_max_length < d.length) :
    supervisorValidate n e d = some .ValidationError := by
  unfold supervisorValidate
  split_ifs <;> rfl

/-- An email value longer than 254 characters fails field validation. -/
lemma supervisorValidate_some_of_long_email {e : String} (n d : String)
    (h : supervisor_email_max_length < e.length) :
    supervisorValidate n e d = some .ValidationError := by
  unfold supervisorValidate
  split_ifs <;> rfl

/-- A username longer than 150 characters fails field validation. -/
lemma userValidate_some_of_long_username {un : String} (r : String)
    (h : username_max_length < un.length) :
    userValidate un r = some .ValidationError := by
  unfold userValidate
  split_ifs
  rfl

/-- A syntactically valid email of exactly 255 characters. -/
def email255 : String := String.mk (List.replicate 246 'a') ++ "@univ.edu"

/-- 256 copies of `'a'`. -/
def str256 : String := String.mk (List.replicate 256 'a')

/-- 151 copies of `'a'`. -/
def str151 : String := String.mk (List.replicate 151 'a')

/-- Counterexample to claim C7 as stated: the claim says the email column
accepts up to 255 characters, but a syntactically valid email of exactly
255 characters is rejected — `EmailField`'s default maximum length is 254. -/
theorem C7_counterexample :
    isValidEmail email255 = true ∧ email255.length = 255 ∧
    supervisorCreate emptyStore "Dr. Lee" email255 "CS"
      = .error .ValidationError := by
  refine ⟨by decide, by decide, ?_⟩
  exact supervisorCreate_error_of_validate emptyStore
    (supervisorValidate_some_of_long_email "Dr. Lee" "CS" (by decide))

/-- Claim C7, amended: `department` and `name` accept up to 255 characters
and `role` up to 20 as declared in `models.py`, but `email` accepts only up
to 254 characters (`EmailField`'s default maximum length) and `username`
only up to 150 (inherited from `AbstractUser`); a value longer than the
column's maximum is rejected. -/
theorem C7_string_lengths_amended :
    supervisor_name_max_length = 255 ∧
    supervisor_department_max_length = 255 ∧
    supervisor_email_max_length = 254 ∧
    role_max_length = 20 ∧
    username_max_length = 150 ∧
    (∀ (s : Store) (n e d : String), supervisor_department_max_length < d.length →
        supervisorCreate s n e d = .error .ValidationError) ∧
    (∀ (s : Store) (n e d : String), supervisor_email_max_length < e.length →
        supervisorCreate s n e d = .error .ValidationError) ∧
    (∀ (s : Store) (now : Nat) (un em r : String) (st ac : Bool),
        username_max_length < un.length →
        userCreate s now un em r st ac = .error .ValidationError) ∧
    (∀ r : String, validRole r = true → r.length ≤ role_max_length) := by
  refine ⟨rfl, rfl, rfl, rfl, rfl, ?_, ?_, ?_, ?_⟩
  · intro s n e d h
    exact supervisorCreate_error_of_validate s
      (supervisorValidate_some_of_long_department n e h)
  · intro s n e d h
    exact supervisorCreate_error_of_validate s
      (supervisorValidate_some_of_long_email n d h)
  · intro s now un em r st ac h
    exact userCreate_error_of_validate s now em st ac
      (userValidate_some_of_long_username r h)
  · intro r h
    simp only [validRole, ROLE_CHOICES, List.any_cons, List.any_nil,
      Bool.or_eq_true, beq_iff_eq, Bool.false_eq_true, or_false] at h
    rcases h with h | h | h | h <;> subst h <;> decide

/-- Witness for the amended C7: the length bounds fire at concrete inputs. -/
theorem C7_string_lengths_amended_witness :
    supervisorCreate emptyStore "Dr. N" "a@b.cd" str256 = .error .ValidationError ∧
    supervisorCreate emptyStore "Dr. N" email255 "CS" = .error .ValidationError ∧
    userCreate emptyStore 0 str151 "x@univ.edu" "student" false true
      = .error .ValidationError ∧
    ("student" : String).length ≤ role_max_length :=
  ⟨C7_string_lengths_amended.2.2.2.2.2.1 emptyStore "Dr. N" "a@b.cd" str256 (by decide),
   C7_string_lengths_amended.2.2.2.2.2.2.1 emptyStore "Dr. N" email255 "CS" (by decide),
   C7_string_lengths_amended.2.2.2.2.2.2.2.1 emptyStore 0 str151 "x@univ.edu" "student"
     false true (by decide),
   C7_string_lengths_amended.2.2.2.2.2.2.2.2 "student" (by decide)⟩

end FypPortal
